import Mathlib

/-!
Shallow embedding of `gydytojas.py` (Medicover visit search / autobooking script).

Modelling conventions:
* Python strings are modelled as `List Char` (ordered lexicographically by code
  point, exactly as Python compares `str` values).
* `datetime.datetime` values flowing through the search / booking logic are
  modelled as natural numbers counting minutes since an epoch (the script works
  at minute precision there); `ONE_DAY` is one day in those units.
* The remote HTTP session (`requests`), HTML parsing (`BeautifulSoup`) and the
  JSON payloads are external collaborators: each response is modelled by a
  record holding exactly the fields the script inspects.
-/

/-- One day, in minutes (the timestamp unit used throughout the model). -/
def ONE_DAY : ℕ := 1440

/-- `Visit = collections.namedtuple('Visit', 'date specialization doctor clinic visit_id')`. -/
structure Visit where
  date : ℕ
  specialization : List Char
  doctor : List Char
  clinic : List Char
  visit_id : List Char
deriving DecidableEq

/-- The full 5-tuple underlying a `Visit`; Python compares namedtuples
lexicographically field by field, which is exactly the `Prod.Lex` order. -/
def Visit.toTuple (v : Visit) : ℕ ×ₗ List Char ×ₗ List Char ×ₗ List Char ×ₗ List Char :=
  toLex (v.date, toLex (v.specialization, toLex (v.doctor, toLex (v.clinic, v.visit_id))))

/-- The tail of the tuple after the date: (specialization, doctor, clinic, visit_id). -/
def Visit.restTuple (v : Visit) : List Char ×ₗ List Char ×ₗ List Char ×ₗ List Char :=
  toLex (v.specialization, toLex (v.doctor, toLex (v.clinic, v.visit_id)))

/-- Python's `<=` on `Visit` namedtuples. -/
def visitLE (a b : Visit) : Prop := a.toTuple ≤ b.toTuple

instance : DecidableRel visitLE := fun a b => inferInstanceAs (Decidable (a.toTuple ≤ b.toTuple))

instance : IsTotal Visit visitLE := ⟨fun a b => le_total a.toTuple b.toTuple⟩

instance : IsTrans Visit visitLE := ⟨fun _ _ _ h h' => le_trans h h'⟩

/-- Python's `sorted(visits)` / `visits.sort()` on full `Visit` records. -/
def sortVisits (vs : List Visit) : List Visit := vs.insertionSort visitLE

/-- The 4-tuple `v[:4] = (date, specialization, doctor, clinic)` used for
deduplication and display ordering in `main`. -/
def Visit.key (v : Visit) : ℕ ×ₗ List Char ×ₗ List Char ×ₗ List Char :=
  toLex (v.date, toLex (v.specialization, toLex (v.doctor, v.clinic)))

/-- `unique_visits = sorted(set(v[:4] for v in visits))` (main, line 456):
project every visit to its 4-tuple, drop duplicates, sort ascending. -/
def unique_visits (vs : List Visit) : List (ℕ ×ₗ List Char ×ₗ List Char ×ₗ List Char) :=
  ((vs.map Visit.key).dedup).insertionSort (· ≤ ·)

/-- `sorted(visits)[0]` (main, line 465): the visit chosen for autobooking. -/
def firstVisit (vs : List Visit) : Option Visit := (sortVisits vs).head?

/- ## Booking Conflict Resolver (`autobook`) -/

/-- The reschedule-response page, reduced to the three facts the script reads:
whether `div#rescheduleSuccess` exists, whether `div#rescheduleFailed` exists,
and whether the latter carries a `hidden` attribute. -/
structure ReschedulePage where
  rescheduleSuccess : Bool
  rescheduleFailed : Bool
  failedHidden : Bool
deriving DecidableEq

/-- Lines 329-336 of `autobook`: classify the reschedule response.
`success = soup.find('div', id='rescheduleSuccess')`;
`failure = soup.find('div', id='rescheduleFailed')`;
`if not (success and failure): return False`;
`return 'hidden' in failure.attrs`. -/
def reschedule_result (p : ReschedulePage) : Bool :=
  if !(p.rescheduleSuccess && p.rescheduleFailed) then false
  else p.failedHidden

/-- The booking/process page for a target visit: whether the conflict element
`div#RescheduleVisitAppElementId` is present, plus the payload the script
extracts from the embedded script tag (`slotId` and the colliding
appointments, already parsed into `Visit` records as the script does). -/
structure ProcessPage where
  conflict : Bool
  slotId : List Char
  appointments : List Visit
deriving DecidableEq

/-- All remote responses one `autobook` invocation can consume. -/
structure BookingEnv where
  processPage : ProcessPage
  reschedulePage : ReschedulePage
  confirmVisit : Bool
deriving DecidableEq

/-- The remote requests `autobook` can issue after the initial process request. -/
inductive Request where
  | process (visitId : List Char)
  | reschedule (slotId : List Char) (oldAppointmentId : List Char)
  | confirmGet (visitId : List Char)
  | confirmPost
deriving DecidableEq

/-- Result of one `autobook` call: `success`/`failure` mirror the returned
boolean; `crash` marks the `visits[0]` IndexError path (empty collision list),
which the script never guards against. -/
inductive BookResult where
  | success
  | failure
  | crash
deriving DecidableEq

/-- `autobook(visit, allow_reschedule)` (lines 285-347), returning the outcome
together with the trace of requests issued.  On a conflict page with
rescheduling forbidden it returns `False` immediately; with rescheduling
allowed it sorts the colliding appointments (`visits.sort()`) and issues a
reschedule request cancelling `visits[0]`; without a conflict it runs the
confirm flow and succeeds iff `div#confirm-visit` is present. -/
def autobook (env : BookingEnv) (visit : Visit) (allow_reschedule : Bool) :
    BookResult × List Request :=
  let pr : Request := .process visit.visit_id
  if env.processPage.conflict then
    if !allow_reschedule then (.failure, [pr])
    else
      match sortVisits env.processPage.appointments with
      | [] => (.crash, [pr])
      | first :: _ =>
        let req : Request := .reschedule env.processPage.slotId first.visit_id
        (if reschedule_result env.reschedulePage then .success else .failure, [pr, req])
  else
    (if env.confirmVisit then .success else .failure,
     [pr, .confirmGet visit.visit_id, .confirmPost])

/- ## Slot Search Paginator (`search`) -/

/-- `t.replace(hour=0, minute=0, second=0, microsecond=0)` on a minute
timestamp: round down to the start of the day. -/
def startOfDay (t : ℕ) : ℕ := t / ONE_DAY * ONE_DAY

/-- The running maximum computed inside the page loop:
`max_appointment_date = max(max_appointment_date or appointment_date, appointment_date)`
over the items of one page (`None` for an empty page). -/
def maxAppointmentDate (items : List Visit) : Option ℕ :=
  items.foldl (fun acc v => some (max (acc.getD v.date) v.date)) none

/-- One iteration of the pagination loop (lines 252-282) applied to the items
of the current response: the visits yielded, and the `searchSince` of the next
request (`none` when the loop breaks, i.e. on an empty page or when the
day-rollover cursor passes `end_time`). -/
def searchStep (end_time : ℕ) (items : List Visit) : List Visit × Option ℕ :=
  if items.isEmpty then ([], none)
  else
    let m := (maxAppointmentDate items).getD 0
    let since' := startOfDay m + ONE_DAY
    (items, if end_time < since' then none else some since')

/-- `since_time = max(datetime.datetime.now(), start_time)` (line 249). -/
def sinceInit (now start_time : ℕ) : ℕ := max now start_time

/-- Fuel-indexed unfolding of the `search` generator.  `provider k` is the
item list of the response to the `k`-th request; the third argument is the
`searchSince` of the current request.  `none` means the fuel ran out before
the loop terminated, `some ys` that the generator finished yielding `ys`. -/
def searchFuel (end_time : ℕ) (provider : ℕ → List Visit) :
    ℕ → ℕ → ℕ → Option (List Visit)
  | 0, _, _ => none
  | fuel + 1, k, _since_time =>
    match searchStep end_time (provider k) with
    | (ys, none) => some ys
    | (ys, some s') => (searchFuel end_time provider fuel (k + 1) s').map (ys ++ ·)

/-- The `searchSince` values of the successive requests actually issued, up to
the given fuel. -/
def searchSinces (end_time : ℕ) (provider : ℕ → List Visit) :
    ℕ → ℕ → ℕ → List ℕ
  | 0, _, _ => []
  | fuel + 1, k, s =>
    s :: (match (searchStep end_time (provider k)).2 with
      | none => []
      | some s' => searchSinces end_time provider fuel (k + 1) s')

/-- The cursor value at the `k`-th request of a run started at `s0` (the
cursor stalls once the loop has stopped issuing requests). -/
def sinceSeq (end_time : ℕ) (provider : ℕ → List Visit) (s0 : ℕ) : ℕ → ℕ
  | 0 => s0
  | k + 1 =>
    match (searchStep end_time (provider k)).2 with
    | some s' => s'
    | none => sinceSeq end_time provider s0 k

/-- The provider honours `searchSince`: every visit in the `k`-th response is
dated at or after the cursor of the `k`-th request. -/
def HonestProvider (end_time : ℕ) (provider : ℕ → List Visit) (s0 : ℕ) : Prop :=
  ∀ k, ∀ v ∈ provider k, sinceSeq end_time provider s0 k ≤ v.date

/- ## Identifier Resolver (`match_param` inside `setup_params`) -/

/-- Python `str.lower()` (ASCII case folding suffices for the lookup texts). -/
def pyLower (s : List Char) : List Char := s.map Char.toLower

/-- One `{text, id}` entry of a lookup list returned by the filters API. -/
structure FilterEntry where
  text : List Char
  id : List Char
deriving DecidableEq

/-- Python dict assignment `m[k] = v`: overwrite the value at an existing key
(keeping its position) or append a fresh binding. -/
def dictInsert (m : List (List Char × List Char)) (k v : List Char) :
    List (List Char × List Char) :=
  if m.any (fun p => p.1 == k) then m.map (fun p => if p.1 == k then (k, v) else p)
  else m ++ [(k, v)]

/-- The dict comprehension `{e['text'].lower(): e['id'] for e in data.get(key, [])}`. -/
def buildMapping (entries : List FilterEntry) : List (List Char × List Char) :=
  entries.foldl (fun m e => dictInsert m (pyLower e.text) e.id) []

/-- `list(mapping)`: the keys of the dict, in insertion order. -/
def dictKeys (m : List (List Char × List Char)) : List (List Char) := m.map Prod.fst

/-- `mapping[k]` (total here; `match_param` only looks up keys produced by
`get_close_matches`, which are always present). -/
def dictGet (m : List (List Char × List Char)) (k : List Char) : List Char :=
  ((m.find? (fun p => p.1 == k)).map Prod.snd).getD []

/-- A scored candidate `(s.ratio(), x)` as built by `difflib.get_close_matches`;
Python compares these pairs lexicographically, hence the `Lex` order. -/
abbrev ScoredMatch := ℚ ×ₗ List Char

/-- Reverse comparison used to sort candidates best-first. -/
def scoreGE (a b : ScoredMatch) : Prop := b ≤ a

instance : DecidableRel scoreGE := fun a b => inferInstanceAs (Decidable (b ≤ a))

instance : IsTotal ScoredMatch scoreGE := ⟨fun a b => (le_total a b).symm⟩

instance : IsTrans ScoredMatch scoreGE := ⟨fun _ _ _ h h' => le_trans h' h⟩

/-- `heapq.nlargest(n, result)`: the `n` largest `(score, x)` pairs, in
descending order. -/
def nlargest (n : ℕ) (l : List ScoredMatch) : List ScoredMatch :=
  (l.insertionSort scoreGE).take n

/-- `difflib.get_close_matches(word, possibilities, n, cutoff)`, parameterised
by the `SequenceMatcher` similarity `ratio` (an external library function):
keep the possibilities whose ratio against `word` reaches `cutoff`, and return
the `n` best, best first. -/
def get_close_matches (ratio : List Char → List Char → ℚ) (word : List Char)
    (possibilities : List (List Char)) (n : ℕ) (cutoff : ℚ) : List (List Char) :=
  let result := (possibilities.filter (fun x => decide (cutoff ≤ ratio x word))).map
    (fun x => (toLex (ratio x word, x) : ScoredMatch))
  (nlargest n result).map (fun p => (ofLex p).2)

/-- The error raised by `match_param`:
`SystemExit(f'Error translating {key} "{text}" to an id.')` carries the
category (`key`) and the query (`text`). -/
structure MatchError where
  key : List Char
  text : List Char
deriving DecidableEq

/-- `match_param(data, key, text)` (lines 199-207): build the lowercased
text-to-id mapping, fuzzy-match the lowercased query against its keys with
`n = 1` and cutoff `0.1`, fail if nothing matches, otherwise translate the
best match back to its id. -/
def match_param (ratio : List Char → List Char → ℚ) (data : List FilterEntry)
    (key text : List Char) : Except MatchError (List Char) :=
  let mapping := buildMapping data
  let ms := get_close_matches ratio (pyLower text) (dictKeys mapping) 1 (1 / 10)
  match ms with
  | [] => .error ⟨key, text⟩
  | m :: _ => .ok (dictGet mapping m)

/- ## Retry Orchestrator (`main`, lines 438-484) -/

/-- `--time` option: an acceptable time-of-day window; `covers` is
`self.start <= dt.time() <= self.end` with `dt.time()` the minute of the day. -/
structure Timerange where
  start : ℕ
  stop : ℕ
deriving DecidableEq

/-- `Timerange.covers(dt)`. -/
def Timerange.covers (tr : Timerange) (dt : ℕ) : Bool :=
  decide (tr.start ≤ dt % ONE_DAY ∧ dt % ONE_DAY ≤ tr.stop)

/-- The command-line options `main` consults inside its retry loop. -/
structure MainArgs where
  start : ℕ
  stop : ℕ
  margin : ℕ
  autobookFlag : Bool
  reschedule : Bool
  keep_going : Bool
  time : Option Timerange
deriving DecidableEq

/-- Lines 449-454: restrict the search results to the requested date range and
optional time-of-day window. -/
def passVisits (args : MainArgs) (start : ℕ) (found : List Visit) : List Visit :=
  let visits := found.filter (fun v => decide (start ≤ v.date ∧ v.date ≤ args.stop))
  match args.time with
  | some tr => visits.filter (fun v => tr.covers v.date)
  | none => visits

/-- What the environment supplies to one iteration of the retry loop: the
current wall clock and the concatenated search results, plus the responses an
autobooking attempt would see. -/
structure PassEnv where
  now : ℕ
  found : List Visit
  booking : BookingEnv
deriving DecidableEq

/-- Terminal outcomes of `main`'s retry loop. -/
inductive MainOutcome where
  | tooLate
  | bookedOk
  | autobookFailed
  | displayedOnly
  | noVisitsFound
  | bookCrash
deriving DecidableEq

/-- The retry loop of `main` (lines 438-484).  Each list element is one
attempt's environment; the result carries the terminal outcome and the number
of the attempt that produced it (`none`: the environment list was exhausted
while the loop was still retrying). -/
def mainLoop (args : MainArgs) (attempt : ℕ) :
    List PassEnv → Option (MainOutcome × ℕ)
  | [] => none
  | e :: rest =>
    let att := attempt + 1
    let start := max args.start (e.now + args.margin)
    if args.stop ≤ start then some (.tooLate, att)
    else
      let visits := passVisits args start e.found
      let uniq := unique_visits visits
      if uniq.isEmpty then
        if !args.keep_going then some (.noVisitsFound, att)
        else mainLoop args att rest
      else
        if args.autobookFlag then
          match (sortVisits visits).head? with
          | none => some (.bookCrash, att)
          | some v =>
            if (autobook e.booking v args.reschedule).1 = .success then some (.bookedOk, att)
            else some (.autobookFailed, att)
        else some (.displayedOnly, att)

/- ## `parse_datetime` (lines 40-75) -/

/-- A `datetime.datetime` with its calendar fields explicit. -/
structure PyDateTime where
  year : ℕ
  month : ℕ
  day : ℕ
  hour : ℕ
  minute : ℕ
  second : ℕ
  microsecond : ℕ
deriving DecidableEq

/-- Numeric value of a decimal digit character. -/
def digitVal (c : Char) : ℕ := c.toNat - '0'.toNat

/-- Take up to `n` leading decimal digits. -/
def takeDigits : ℕ → List Char → List Char × List Char
  | 0, s => ([], s)
  | _ + 1, [] => ([], [])
  | n + 1, c :: rest =>
    if c.isDigit then
      let p := takeDigits n rest
      (c :: p.1, p.2)
    else ([], c :: rest)

/-- Value of a digit string. -/
def digitsToNat (ds : List Char) : ℕ := ds.foldl (fun a c => a * 10 + digitVal c) 0

/-- The strptime directive `%Y` (exactly four digits). -/
def parseYear (s : List Char) : Option (ℕ × List Char) :=
  match takeDigits 4 s with
  | (ds, r) => if ds.length = 4 then some (digitsToNat ds, r) else none

/-- The strptime directive `%m` (regex alternation of 2-digit months 01-12,
then a single digit 1-9). -/
def parseMonth : List Char → Option (ℕ × List Char)
  | '1' :: c :: rest =>
    if '0' ≤ c ∧ c ≤ '2' then some (10 + digitVal c, rest) else some (1, c :: rest)
  | '0' :: c :: rest =>
    if '1' ≤ c ∧ c ≤ '9' then some (digitVal c, rest) else none
  | c :: rest =>
    if '1' ≤ c ∧ c ≤ '9' then some (digitVal c, rest) else none
  | [] => none

/-- The strptime directive `%d` (2-digit days 01-31, a single digit 1-9, or a
space-padded single digit). -/
def parseDay : List Char → Option (ℕ × List Char)
  | '3' :: c :: rest =>
    if c = '0' ∨ c = '1' then some (30 + digitVal c, rest) else some (3, c :: rest)
  | '1' :: c :: rest =>
    if c.isDigit then some (10 + digitVal c, rest) else some (1, c :: rest)
  | '2' :: c :: rest =>
    if c.isDigit then some (20 + digitVal c, rest) else some (2, c :: rest)
  | '0' :: c :: rest =>
    if '1' ≤ c ∧ c ≤ '9' then some (digitVal c, rest) else none
  | ' ' :: c :: rest =>
    if '1' ≤ c ∧ c ≤ '9' then some (digitVal c, rest) else none
  | c :: rest =>
    if '1' ≤ c ∧ c ≤ '9' then some (digitVal c, rest) else none
  | [] => none

/-- The strptime directive `%H` (2-digit hours 00-23, then any single digit). -/
def parseHour : List Char → Option (ℕ × List Char)
  | '2' :: c :: rest =>
    if '0' ≤ c ∧ c ≤ '3' then some (20 + digitVal c, rest) else some (2, c :: rest)
  | '0' :: c :: rest =>
    if c.isDigit then some (digitVal c, rest) else some (0, c :: rest)
  | '1' :: c :: rest =>
    if c.isDigit then some (10 + digitVal c, rest) else some (1, c :: rest)
  | c :: rest =>
    if c.isDigit then some (digitVal c, rest) else none
  | [] => none

/-- The strptime directive `%M` (2 digits 00-59, then any single digit). -/
def parseMin : List Char → Option (ℕ × List Char)
  | c1 :: c2 :: rest =>
    if ('0' ≤ c1 ∧ c1 ≤ '5') ∧ c2.isDigit then some (digitVal c1 * 10 + digitVal c2, rest)
    else if c1.isDigit then some (digitVal c1, c2 :: rest)
    else none
  | [c] => if c.isDigit then some (digitVal c, []) else none
  | [] => none

/-- The strptime directive `%S` (60 and 61 admitted for leap seconds, 2 digits
00-59, then any single digit); the datetime constructor later rejects values
above 59. -/
def parseSec : List Char → Option (ℕ × List Char)
  | '6' :: c :: rest =>
    if c = '0' ∨ c = '1' then some (60 + digitVal c, rest) else some (6, c :: rest)
  | c1 :: c2 :: rest =>
    if ('0' ≤ c1 ∧ c1 ≤ '5') ∧ c2.isDigit then some (digitVal c1 * 10 + digitVal c2, rest)
    else if c1.isDigit then some (digitVal c1, c2 :: rest)
    else none
  | [c] => if c.isDigit then some (digitVal c, []) else none
  | [] => none

/-- One element of a strptime format string: a literal character or one of the
directives used by `parse_datetime`. -/
inductive FmtItem where
  | lit (c : Char)
  | year
  | month
  | day
  | hour
  | minute
  | second
deriving DecidableEq, BEq

/-- Run a format against an input, filling directive values into the record.
strptime requires the whole input to be consumed, matches literals
case-insensitively, and turns whitespace in the format into a match of one or
more whitespace characters. -/
def runFmt : List FmtItem → List Char → PyDateTime → Option PyDateTime
  | [], [], dt => some dt
  | [], _ :: _, _ => none
  | .lit c :: items, s, dt =>
    match s with
    | c' :: rest =>
      if c.isWhitespace then
        if c'.isWhitespace then runFmt items (rest.dropWhile Char.isWhitespace) dt else none
      else
        if c'.toLower = c.toLower then runFmt items rest dt else none
    | [] => none
  | .year :: items, s, dt => (parseYear s).bind fun p => runFmt items p.2 {dt with year := p.1}
  | .month :: items, s, dt => (parseMonth s).bind fun p => runFmt items p.2 {dt with month := p.1}
  | .day :: items, s, dt => (parseDay s).bind fun p => runFmt items p.2 {dt with day := p.1}
  | .hour :: items, s, dt => (parseHour s).bind fun p => runFmt items p.2 {dt with hour := p.1}
  | .minute :: items, s, dt => (parseMin s).bind fun p => runFmt items p.2 {dt with minute := p.1}
  | .second :: items, s, dt => (parseSec s).bind fun p => runFmt items p.2 {dt with second := p.1}

/-- strptime's default date: 1900-01-01 00:00:00. -/
def strptimeDefault : PyDateTime := ⟨1900, 1, 1, 0, 0, 0, 0⟩

/-- Gregorian leap year. -/
def isLeapYear (y : ℕ) : Bool := decide (y % 4 = 0 ∧ (y % 100 ≠ 0 ∨ y % 400 = 0))

/-- Length of a month. -/
def daysInMonth (y m : ℕ) : ℕ :=
  if m = 2 then (if isLeapYear y then 29 else 28)
  else if m = 4 ∨ m = 6 ∨ m = 9 ∨ m = 11 then 30
  else 31

/-- The validation performed by the `datetime.datetime` constructor beyond the
per-directive ranges: the year must be in `MINYEAR..MAXYEAR` and the day must
exist in the parsed month. -/
def validDate (dt : PyDateTime) : Bool :=
  decide (1 ≤ dt.year ∧ dt.year ≤ 9999 ∧ dt.day ≤ daysInMonth dt.year dt.month ∧
    dt.second ≤ 59)

/-- `datetime.datetime.strptime(t, time_format)` for the formats below; an
invalid calendar date raises `ValueError`, i.e. yields `none`. -/
def strptime (s : List Char) (fmt : List FmtItem) : Option PyDateTime :=
  (runFmt fmt s strptimeDefault).bind fun dt => if validDate dt then some dt else none

/-- The `FORMATS` list of `parse_datetime`, in source order. -/
def FORMATS : List (List FmtItem) :=
  [[.year, .lit '-', .month, .lit '-', .day, .lit 'T', .hour, .lit ':', .minute, .lit ':', .second],
   [.year, .lit '-', .month, .lit '-', .day, .lit ' ', .hour, .lit ':', .minute, .lit ':', .second],
   [.year, .lit '.', .month, .lit '.', .day, .lit ' ', .hour, .lit ':', .minute, .lit ':', .second],
   [.year, .lit '-', .month, .lit '-', .day, .lit 'T', .hour, .lit ':', .minute],
   [.year, .lit '-', .month, .lit '-', .day, .lit ' ', .hour, .lit ':', .minute],
   [.year, .lit '.', .month, .lit '.', .day, .lit ' ', .hour, .lit ':', .minute],
   [.year, .lit '-', .month, .lit '-', .day, .lit 'T', .hour],
   [.year, .lit '-', .month, .lit '-', .day, .lit ' ', .hour],
   [.year, .lit '.', .month, .lit '.', .day, .lit ' ', .hour],
   [.year, .lit '-', .month, .lit '-', .day],
   [.year, .lit '.', .month, .lit '.', .day]]

/-- Whether `'%M' in time_format`. -/
def fmtHasMinute (f : List FmtItem) : Bool := f.any (fun i => i == .minute)

/-- Whether `'%H' in time_format`. -/
def fmtHasHour (f : List FmtItem) : Bool := f.any (fun i => i == .hour)

/-- Try the formats in order, returning the first match together with the
format that matched. -/
def tryFormats : List (List FmtItem) → List Char → Option (List FmtItem × PyDateTime)
  | [], _ => none
  | f :: fs, s =>
    match strptime s f with
    | some dt => some (f, dt)
    | none => tryFormats fs s

/-- The post-parse adjustment of `parse_datetime` (lines 65-72): maximizing
forces seconds/microseconds to their top values and, when the format carried
no minutes or no hours, tops those up too; otherwise seconds and microseconds
are zeroed. -/
def maximizeFixup (fmt : List FmtItem) (maximize : Bool) (ret0 : PyDateTime) : PyDateTime :=
  let ret1 := if maximize then {ret0 with second := 59, microsecond := 999999}
    else {ret0 with second := 0, microsecond := 0}
  let ret2 := if !fmtHasMinute fmt && maximize then {ret1 with minute := 59} else ret1
  if !fmtHasHour fmt && maximize then {ret2 with hour := 23} else ret2

/-- Python `str.strip()`. -/
def pyStrip (s : List Char) : List Char :=
  (((s.dropWhile Char.isWhitespace).reverse).dropWhile Char.isWhitespace).reverse

/-- `re.sub(r'[+-][0-9]{2}:?[0-9]{2}$', '', t)`: drop a trailing timezone
offset. -/
def dropTimezone (s : List Char) : List Char :=
  match s.reverse with
  | d1 :: d2 :: ':' :: d3 :: d4 :: sign :: rest =>
    if d1.isDigit ∧ d2.isDigit ∧ d3.isDigit ∧ d4.isDigit ∧ (sign = '+' ∨ sign = '-') then
      rest.reverse
    else s
  | d1 :: d2 :: d3 :: d4 :: sign :: rest =>
    if d1.isDigit ∧ d2.isDigit ∧ d3.isDigit ∧ d4.isDigit ∧ (sign = '+' ∨ sign = '-') then
      rest.reverse
    else s
  | _ => s

/-- `parse_datetime(t, maximize)` (lines 40-75): strip, drop a trailing
timezone, try each format in order, then apply the maximize adjustment;
`none` models the final `raise ValueError`. -/
def parse_datetime (t : List Char) (maximize : Bool) : Option PyDateTime :=
  let t1 := pyStrip (dropTimezone (pyStrip t))
  (tryFormats FORMATS t1).map fun p => maximizeFixup p.1 maximize p.2

/- ## Helper lemmas -/

/-- Unfolding of the namedtuple order: date first, then the remaining fields. -/
theorem visitLE_iff {a b : Visit} :
    visitLE a b ↔ a.date < b.date ∨ (a.date = b.date ∧ a.restTuple ≤ b.restTuple) :=
  Prod.Lex.le_iff (a.date, a.restTuple) (b.date, b.restTuple)

/-- An earlier namedtuple has an earlier-or-equal date. -/
theorem visitLE_date_le {a b : Visit} (h : visitLE a b) : a.date ≤ b.date := by
  rcases visitLE_iff.1 h with h' | ⟨h', _⟩
  · exact le_of_lt h'
  · exact le_of_eq h'

/-- An insertion sort is empty exactly when its input is. -/
theorem insertionSort_eq_nil_iff {α : Type*} (r : α → α → Prop) [DecidableRel r]
    (l : List α) : l.insertionSort r = [] ↔ l = [] := by
  constructor
  · intro h
    have hp := List.perm_insertionSort r l
    rw [h] at hp
    exact hp.symm.eq_nil
  · intro h
    subst h
    rfl

/-- `unique_visits` is empty exactly when its input is. -/
theorem unique_visits_eq_nil {vs : List Visit} : unique_visits vs = [] ↔ vs = [] := by
  rw [unique_visits, insertionSort_eq_nil_iff, List.dedup_eq_nil, List.map_eq_nil_iff]

/- ## C1: reschedule-response classification -/

/-- C1 counterexample: the outcome is not "Success iff the success marker is
present and the failure marker absent".  On the page that has only the
success marker the script returns failure (undetermined response), and on the
page with both markers where the failure marker is hidden it returns success. -/
theorem reschedule_result_claim_false :
    ¬ (∀ p : ReschedulePage, reschedule_result p = true ↔
        (p.rescheduleSuccess = true ∧ p.rescheduleFailed = false)) := by
  intro h
  have h1 := (h ⟨true, false, false⟩).mpr ⟨rfl, rfl⟩
  simp [reschedule_result] at h1

/-- C1 amended: the reschedule outcome is Success iff the page contains both
marker elements and the failure marker carries the `hidden` attribute; a page
missing either marker (the undetermined case) is always Failure. -/
theorem reschedule_result_iff (p : ReschedulePage) :
    reschedule_result p = true ↔
      (p.rescheduleSuccess = true ∧ p.rescheduleFailed = true ∧ p.failedHidden = true) := by
  rcases p with ⟨s, f, hd⟩
  cases s <;> cases f <;> cases hd <;> simp [reschedule_result]

/- ## C5: conflict with rescheduling forbidden -/

/-- C5: if the process page shows a conflict and rescheduling is not allowed,
the booking attempt fails and the only request ever issued is the initial
process request - no Reschedule (cancel) and no Confirm request follows. -/
theorem autobook_reschedule_forbidden (env : BookingEnv) (visit : Visit)
    (hc : env.processPage.conflict = true) :
    autobook env visit false = (.failure, [.process visit.visit_id]) := by
  simp [autobook, hc]

/-- C5 witness: a concrete conflicted booking attempt with rescheduling
disabled. -/
theorem autobook_reschedule_forbidden_witness :
    autobook ⟨⟨true, ['s'], []⟩, ⟨true, true, true⟩, true⟩ ⟨0, [], [], [], ['i']⟩ false
      = (.failure, [.process ['i']]) :=
  autobook_reschedule_forbidden _ _ rfl

/- ## C9: the earliest colliding appointment is cancelled -/

/-- C9: when the conflict path runs with rescheduling allowed, the requests
issued are the process request followed by one reschedule request whose
`oldAppointmentId` is the id of the head of the sorted collision list, and
that appointment is a colliding appointment of minimal date. -/
theorem autobook_cancels_earliest (env : BookingEnv) (visit : Visit)
    (hc : env.processPage.conflict = true) (first : Visit) (rest : List Visit)
    (hs : sortVisits env.processPage.appointments = first :: rest) :
    (autobook env visit true).2 =
      [.process visit.visit_id, .reschedule env.processPage.slotId first.visit_id] ∧
    first ∈ env.processPage.appointments ∧
    ∀ a ∈ env.processPage.appointments, first.date ≤ a.date := by
  refine ⟨by simp [autobook, hc, hs], ?_, ?_⟩
  · have := List.perm_insertionSort visitLE env.processPage.appointments
    exact this.mem_iff.mp (by rw [sortVisits] at hs; rw [hs]; exact List.mem_cons_self _ _)
  · intro a ha
    have hperm := List.perm_insertionSort visitLE env.processPage.appointments
    have hmem : a ∈ first :: rest := by
      rw [← hs, sortVisits]
      exact hperm.mem_iff.mpr ha
    have hsorted : List.Sorted visitLE (first :: rest) := by
      rw [← hs, sortVisits]
      exact List.sorted_insertionSort visitLE env.processPage.appointments
    rcases List.mem_cons.mp hmem with h | h
    · exact le_of_eq (congrArg Visit.date h.symm)
    · exact visitLE_date_le (List.rel_of_sorted_cons hsorted a h)

/-- C9 witness: two colliding appointments, dated 2024-03-01 and 2024-03-02
(as minutes since the epoch: 28487520 and 28488960), listed later-first; the
earlier one is selected for cancellation. -/
theorem autobook_cancels_earliest_witness :
    (autobook ⟨⟨true, ['s'],
        [⟨28488960, ['c'], ['d'], ['k'], ['B']⟩, ⟨28487520, ['c'], ['d'], ['k'], ['A']⟩]⟩,
      ⟨true, true, true⟩, true⟩ ⟨0, [], [], [], ['i']⟩ true).2 =
      [.process ['i'], .reschedule ['s'] ['A']] ∧
    (⟨28487520, ['c'], ['d'], ['k'], ['A']⟩ : Visit) ∈
      [(⟨28488960, ['c'], ['d'], ['k'], ['B']⟩ : Visit), ⟨28487520, ['c'], ['d'], ['k'], ['A']⟩] ∧
    ∀ a ∈ [(⟨28488960, ['c'], ['d'], ['k'], ['B']⟩ : Visit), ⟨28487520, ['c'], ['d'], ['k'], ['A']⟩],
      (28487520 : ℕ) ≤ a.date :=
  autobook_cancels_earliest
    ⟨⟨true, ['s'],
        [⟨28488960, ['c'], ['d'], ['k'], ['B']⟩, ⟨28487520, ['c'], ['d'], ['k'], ['A']⟩]⟩,
      ⟨true, true, true⟩, true⟩
    ⟨0, [], [], [], ['i']⟩ rfl
    ⟨28487520, ['c'], ['d'], ['k'], ['A']⟩ [⟨28488960, ['c'], ['d'], ['k'], ['B']⟩]
    (by decide)

/- ## C8: the autobooked visit is the full-record minimum -/

/-- C8: `sorted(visits)[0]` picks a member of the candidate list that is
minimal for the full-record order: every other candidate either has a strictly
later date, or ties on the date and is at least as large in the remaining
(specialization, doctor, clinic, visit_id) tuple order. -/
theorem firstVisit_is_min (vs : List Visit) (v : Visit) (h : firstVisit vs = some v) :
    v ∈ vs ∧ ∀ w ∈ vs, v.date < w.date ∨ (v.date = w.date ∧ v.restTuple ≤ w.restTuple) := by
  rcases hs : sortVisits vs with _ | ⟨x, t⟩
  · rw [firstVisit, hs] at h
    simp at h
  · rw [firstVisit, hs] at h
    simp only [List.head?_cons, Option.some.injEq] at h
    subst h
    have hperm := List.perm_insertionSort visitLE vs
    have hsorted : List.Sorted visitLE (x :: t) := by
      rw [← hs, sortVisits]
      exact List.sorted_insertionSort visitLE vs
    constructor
    · exact hperm.mem_iff.mp (by rw [sortVisits] at hs; rw [hs]; exact List.mem_cons_self _ _)
    · intro w hw
      have hmem : w ∈ x :: t := by
        rw [← hs, sortVisits]
        exact hperm.mem_iff.mpr hw
      rcases List.mem_cons.mp hmem with h' | h'
      · subst h'
        exact Or.inr ⟨rfl, le_refl _⟩
      · exact visitLE_iff.1 (List.rel_of_sorted_cons hsorted w h')

/-- C8 witness: of two candidates the one with the earlier date is chosen, and
of two candidates tying on date, specialization, doctor and clinic the one
with the smaller `visit_id` is chosen. -/
theorem firstVisit_is_min_witness :
    (⟨7, ['c'], ['d'], ['k'], ['1']⟩ : Visit) ∈
      [(⟨7, ['c'], ['d'], ['k'], ['2']⟩ : Visit), ⟨7, ['c'], ['d'], ['k'], ['1']⟩,
        ⟨9, ['a'], ['a'], ['a'], ['0']⟩] ∧
    ∀ w ∈ [(⟨7, ['c'], ['d'], ['k'], ['2']⟩ : Visit), ⟨7, ['c'], ['d'], ['k'], ['1']⟩,
        ⟨9, ['a'], ['a'], ['a'], ['0']⟩],
      (⟨7, ['c'], ['d'], ['k'], ['1']⟩ : Visit).date < w.date ∨
        ((⟨7, ['c'], ['d'], ['k'], ['1']⟩ : Visit).date = w.date ∧
          (⟨7, ['c'], ['d'], ['k'], ['1']⟩ : Visit).restTuple ≤ w.restTuple) :=
  firstVisit_is_min [⟨7, ['c'], ['d'], ['k'], ['2']⟩, ⟨7, ['c'], ['d'], ['k'], ['1']⟩,
      ⟨9, ['a'], ['a'], ['a'], ['0']⟩] ⟨7, ['c'], ['d'], ['k'], ['1']⟩ (by decide)

/- ## C7: deduplication and display ordering -/

/-- C7: the displayed list has exactly one entry for the 4-tuple key of any
input visit - the key is present, and the list never repeats any entry (so
visits differing only in `visit_id` collapse to one row) - and it is sorted
ascending by the 4-tuple order. -/
theorem unique_visits_count_sorted (vs : List Visit) (v : Visit) (hv : v ∈ vs) :
    v.key ∈ unique_visits vs ∧ (unique_visits vs).Nodup ∧
      List.Sorted (· ≤ ·) (unique_visits vs) := by
  have hperm : List.Perm (unique_visits vs) ((vs.map Visit.key).dedup) :=
    List.perm_insertionSort _ _
  refine ⟨?_, ?_, ?_⟩
  · exact hperm.mem_iff.mpr (List.mem_dedup.mpr (List.mem_map_of_mem Visit.key hv))
  · exact hperm.nodup_iff.mpr (List.nodup_dedup _)
  · rw [unique_visits]
    exact List.sorted_insertionSort _ _

/-- C7 witness: two visits sharing (date, specialization, doctor, clinic) with
different ids yield a single display row for that tuple. -/
theorem unique_visits_count_sorted_witness :
    Visit.key ⟨5, ['c'], ['d'], ['k'], ['1']⟩ ∈
      unique_visits [⟨5, ['c'], ['d'], ['k'], ['1']⟩, ⟨5, ['c'], ['d'], ['k'], ['2']⟩] ∧
    (unique_visits [⟨5, ['c'], ['d'], ['k'], ['1']⟩, ⟨5, ['c'], ['d'], ['k'], ['2']⟩]).Nodup ∧
    List.Sorted (· ≤ ·)
      (unique_visits [⟨5, ['c'], ['d'], ['k'], ['1']⟩, ⟨5, ['c'], ['d'], ['k'], ['2']⟩]) :=
  unique_visits_count_sorted
    [⟨5, ['c'], ['d'], ['k'], ['1']⟩, ⟨5, ['c'], ['d'], ['k'], ['2']⟩]
    ⟨5, ['c'], ['d'], ['k'], ['1']⟩ (by decide)

/- ## C6: similarity floor of the identifier resolver -/

/-- In the lexicographic order, a smaller pair has a smaller-or-equal first
component. -/
theorem lex_fst_le {α β : Type*} [Preorder α] [LE β] {x y : α ×ₗ β} (h : x ≤ y) :
    (ofLex x).1 ≤ (ofLex y).1 := by
  rcases (Prod.Lex.le_iff (ofLex x) (ofLex y)).1 h with h' | ⟨h', _⟩
  · exact le_of_lt h'
  · exact le_of_eq h'

/-- When no possibility reaches the cutoff, `get_close_matches` is empty. -/
theorem get_close_matches_none (ratio : List Char → List Char → ℚ) (word : List Char)
    (poss : List (List Char)) (cutoff : ℚ)
    (h : ∀ x ∈ poss, ratio x word < cutoff) :
    get_close_matches ratio word poss 1 cutoff = [] := by
  have hf : poss.filter (fun x => decide (cutoff ≤ ratio x word)) = [] :=
    List.filter_eq_nil_iff.mpr fun x hx => by
      simp only [decide_eq_true_eq]
      exact not_le.mpr (h x hx)
  simp [get_close_matches, hf, nlargest]

/-- When some possibility reaches the cutoff, `get_close_matches` with `n = 1`
returns exactly one match, which reaches the cutoff and has maximal ratio. -/
theorem get_close_matches_best (ratio : List Char → List Char → ℚ) (word : List Char)
    (poss : List (List Char)) (cutoff : ℚ)
    (h : ∃ x ∈ poss, cutoff ≤ ratio x word) :
    ∃ b ∈ poss, cutoff ≤ ratio b word ∧ (∀ x ∈ poss, ratio x word ≤ ratio b word) ∧
      get_close_matches ratio word poss 1 cutoff = [b] := by
  obtain ⟨x0, hx0, hr0⟩ := h
  set cands := poss.filter (fun x => decide (cutoff ≤ ratio x word)) with hcands
  set result := cands.map (fun x => (toLex (ratio x word, x) : ScoredMatch)) with hresult
  have hx0c : x0 ∈ cands := by
    rw [hcands]
    exact List.mem_filter.mpr ⟨hx0, by simp [hr0]⟩
  have hres_ne : result ≠ [] := by
    rw [hresult]
    simp only [ne_eq, List.map_eq_nil_iff]
    exact List.ne_nil_of_mem hx0c
  rcases hsort : result.insertionSort scoreGE with _ | ⟨p, ps⟩
  · exact absurd ((insertionSort_eq_nil_iff scoreGE result).mp hsort) hres_ne
  · have hp_res : p ∈ result := (List.perm_insertionSort scoreGE result).mem_iff.mp
      (by rw [hsort]; exact List.mem_cons_self _ _)
    obtain ⟨b, hb_c, hb_eq⟩ := List.mem_map.mp hp_res
    have hb_filter := List.mem_filter.mp (by rw [← hcands]; exact hb_c)
    have hb_poss : b ∈ poss := hb_filter.1
    have hb_cut : cutoff ≤ ratio b word := by
      have := hb_filter.2
      simpa using this
    have hsorted : List.Sorted scoreGE (p :: ps) := by
      rw [← hsort]
      exact List.sorted_insertionSort scoreGE result
    refine ⟨b, hb_poss, hb_cut, ?_, ?_⟩
    · intro x hx
      by_cases hxc : cutoff ≤ ratio x word
      · have hq_res : (toLex (ratio x word, x) : ScoredMatch) ∈ result := by
          rw [hresult]
          refine List.mem_map_of_mem _ ?_
          rw [hcands]
          exact List.mem_filter.mpr ⟨hx, by simp [hxc]⟩
        have hq_sorted : (toLex (ratio x word, x) : ScoredMatch) ∈ p :: ps := by
          rw [← hsort]
          exact (List.perm_insertionSort scoreGE result).mem_iff.mpr hq_res
        rcases List.mem_cons.mp hq_sorted with hq | hq
        · rw [← hb_eq] at hq
          exact le_of_eq (congrArg (fun z => (ofLex z).1) hq)
        · have hge : scoreGE p (toLex (ratio x word, x)) :=
            List.rel_of_sorted_cons hsorted _ hq
          have hle := lex_fst_le hge
          rw [← hb_eq] at hle
          exact hle
      · exact le_trans (le_of_lt (not_le.mp hxc)) hb_cut
    · rw [get_close_matches, nlargest]
      rw [← hcands, ← hresult, hsort]
      rw [← hb_eq]
      rfl

/-- C6: `match_param` fails - naming the category and the query - exactly when
no lookup key clears the similarity floor `0.1` against the lowercased query;
otherwise it returns the id of a best-matching key (one that clears the floor
and whose similarity no other key exceeds), never a low-confidence fallback. -/
theorem match_param_similarity_floor (ratio : List Char → List Char → ℚ)
    (data : List FilterEntry) (key text : List Char) :
    ((∀ x ∈ dictKeys (buildMapping data), ratio x (pyLower text) < 1 / 10) →
      match_param ratio data key text = .error ⟨key, text⟩) ∧
    ((∃ x ∈ dictKeys (buildMapping data), 1 / 10 ≤ ratio x (pyLower text)) →
      ∃ best ∈ dictKeys (buildMapping data),
        1 / 10 ≤ ratio best (pyLower text) ∧
        (∀ x ∈ dictKeys (buildMapping data),
          ratio x (pyLower text) ≤ ratio best (pyLower text)) ∧
        match_param ratio data key text = .ok (dictGet (buildMapping data) best)) := by
  constructor
  · intro h
    have hnone := get_close_matches_none ratio (pyLower text)
      (dictKeys (buildMapping data)) (1 / 10) h
    simp only [match_param]
    rw [hnone]
  · intro h
    obtain ⟨b, hb, hcut, hmax, heq⟩ := get_close_matches_best ratio (pyLower text)
      (dictKeys (buildMapping data)) (1 / 10) h
    refine ⟨b, hb, hcut, hmax, ?_⟩
    simp only [match_param]
    rw [heq]

/-- C6 witness: a query no lookup key comes close to is rejected with an error
naming the category and the query. -/
theorem match_param_similarity_floor_witness :
    match_param (fun _ _ => 0) [⟨"Cardiology".data, "11".data⟩] "services".data "zzz".data
      = .error ⟨"services".data, "zzz".data⟩ :=
  (match_param_similarity_floor (fun _ _ => 0) [⟨"Cardiology".data, "11".data⟩]
    "services".data "zzz".data).1 (fun x _ => by norm_num)

/- ## C2, C3: pagination termination and cursor monotonicity -/

/-- Folding the page maximum from a `some` seed tracks the plain maximum. -/
theorem foldl_max_some (l : List Visit) (m : ℕ) :
    l.foldl (fun acc v => some (max (acc.getD v.date) v.date)) (some m)
      = some (l.foldl (fun a v => max a v.date) m) := by
  induction l generalizing m with
  | nil => rfl
  | cons v l ih =>
    simp only [List.foldl_cons, Option.getD_some]
    exact ih _

/-- The seed never exceeds the folded maximum. -/
theorem le_foldl_max (l : List Visit) (m : ℕ) :
    m ≤ l.foldl (fun a v => max a v.date) m := by
  induction l generalizing m with
  | nil => exact le_refl m
  | cons v l ih => exact le_trans (le_max_left _ _) (ih _)

/-- No member's date exceeds the folded maximum. -/
theorem mem_le_foldl_max (l : List Visit) : ∀ (m : ℕ) (v : Visit), v ∈ l →
    v.date ≤ l.foldl (fun a v => max a v.date) m := by
  induction l with
  | nil =>
    intro m v hv
    cases hv
  | cons w l ih =>
    intro m v hv
    rcases List.mem_cons.mp hv with h | h
    · subst h
      exact le_trans (le_max_right _ _) (le_foldl_max _ _)
    · exact ih _ _ h

/-- `maxAppointmentDate` on a non-empty page is the maximum of its dates. -/
theorem maxAppointmentDate_cons (w : Visit) (l : List Visit) :
    maxAppointmentDate (w :: l) = some (l.foldl (fun a v => max a v.date) w.date) := by
  rw [maxAppointmentDate, List.foldl_cons]
  simp only [Option.getD_none, max_self]
  exact foldl_max_some l w.date

/-- Every item's date is bounded by the page maximum. -/
theorem le_maxAppointmentDate (items : List Visit) (v : Visit) (hv : v ∈ items) :
    v.date ≤ (maxAppointmentDate items).getD 0 := by
  cases items with
  | nil => cases hv
  | cons w l =>
    rw [maxAppointmentDate_cons, Option.getD_some]
    rcases List.mem_cons.mp hv with h | h
    · rw [h]
      exact le_foldl_max l w.date
    · exact mem_le_foldl_max l w.date v h

/-- A step that continues produces the day-after-the-maximum cursor. -/
theorem searchStep_some_eq (end_time : ℕ) (items : List Visit) (s' : ℕ)
    (hstep : (searchStep end_time items).2 = some s') :
    s' = startOfDay ((maxAppointmentDate items).getD 0) + ONE_DAY := by
  simp only [searchStep] at hstep
  split at hstep
  · cases hstep
  · split at hstep
    · cases hstep
    · exact (Option.some.injEq _ _ ▸ hstep).symm

/-- A step that continues was taken on a non-empty page. -/
theorem searchStep_some_ne_nil (end_time : ℕ) (items : List Visit) (s' : ℕ)
    (hstep : (searchStep end_time items).2 = some s') : items ≠ [] := by
  intro h
  subst h
  cases hstep

/-- If every item of the page is dated at or after the current cursor, the
next cursor is strictly later. -/
theorem searchStep_next_gt (end_time : ℕ) (items : List Visit) (s s' : ℕ)
    (hh : ∀ v ∈ items, s ≤ v.date)
    (hstep : (searchStep end_time items).2 = some s') : s < s' := by
  obtain ⟨v, hv⟩ := List.exists_mem_of_ne_nil _ (searchStep_some_ne_nil _ _ _ hstep)
  have h1 : s ≤ v.date := hh v hv
  have h2 : v.date ≤ (maxAppointmentDate items).getD 0 := le_maxAppointmentDate items v hv
  rw [searchStep_some_eq end_time items s' hstep, startOfDay, ONE_DAY]
  have h3 := Nat.div_add_mod ((maxAppointmentDate items).getD 0) 1440
  have h4 : (maxAppointmentDate items).getD 0 % 1440 < 1440 := Nat.mod_lt _ (by norm_num)
  omega

/-- Unfolding of `sinceSeq` at a successor index. -/
theorem sinceSeq_succ (end_time : ℕ) (provider : ℕ → List Visit) (s0 k : ℕ) :
    sinceSeq end_time provider s0 (k + 1) =
      match (searchStep end_time (provider k)).2 with
      | some s' => s'
      | none => sinceSeq end_time provider s0 k := rfl

/-- The cursor never decreases between consecutive requests of an honest run. -/
theorem sinceSeq_le_succ (end_time : ℕ) (provider : ℕ → List Visit) (s0 : ℕ)
    (honest : HonestProvider end_time provider s0) (k : ℕ) :
    sinceSeq end_time provider s0 k ≤ sinceSeq end_time provider s0 (k + 1) := by
  rw [sinceSeq_succ]
  cases hstep : (searchStep end_time (provider k)).2 with
  | none => exact le_refl _
  | some s' =>
    exact le_of_lt (searchStep_next_gt end_time (provider k) _ s' (honest k) hstep)

/-- The head of a request trace is the cursor it was started from. -/
theorem searchSinces_head (end_time : ℕ) (provider : ℕ → List Visit)
    (fuel k s y : ℕ)
    (h : (searchSinces end_time provider fuel k s).head? = some y) : y = s := by
  cases fuel with
  | zero => cases h
  | succ fuel =>
    rw [searchSinces] at h
    simp only [List.head?_cons, Option.some.injEq] at h
    exact h.symm

/-- The request trace started at the `k`-th cursor is non-decreasing. -/
theorem searchSinces_chain (end_time : ℕ) (provider : ℕ → List Visit) (s0 : ℕ)
    (honest : HonestProvider end_time provider s0) :
    ∀ fuel k, List.Chain' (· ≤ ·)
      (searchSinces end_time provider fuel k (sinceSeq end_time provider s0 k)) := by
  intro fuel
  induction fuel with
  | zero =>
    intro k
    rw [searchSinces]
    exact List.chain'_nil
  | succ fuel ih =>
    intro k
    rw [searchSinces]
    cases hstep : (searchStep end_time (provider k)).2 with
    | none => simp
    | some s' =>
      have hs' : sinceSeq end_time provider s0 (k + 1) = s' := by
        rw [sinceSeq_succ, hstep]
      refine List.Chain'.cons' ?_ ?_
      · rw [← hs']
        exact ih (k + 1)
      · intro y hy
        have hy' : y = s' := by
          rw [← hs'] at hy
          exact (searchSinces_head _ _ _ _ _ _ hy).trans hs'
        subst hy'
        rw [← hs']
        exact sinceSeq_le_succ end_time provider s0 honest k

/-- C3: in a run against a provider that honours `searchSince`, the cursor is
non-decreasing from one request to the next, every issued request trace is
non-decreasing, and after a non-empty page the next request's cursor is
exactly the start of the day after the page's maximum date plus one day. -/
theorem search_cursor_monotone (end_time s0 : ℕ) (provider : ℕ → List Visit)
    (honest : HonestProvider end_time provider s0) :
    (∀ k, sinceSeq end_time provider s0 k ≤ sinceSeq end_time provider s0 (k + 1)) ∧
    (∀ fuel, List.Chain' (· ≤ ·) (searchSinces end_time provider fuel 0 s0)) ∧
    (∀ k s', provider k ≠ [] → (searchStep end_time (provider k)).2 = some s' →
      sinceSeq end_time provider s0 (k + 1) =
        startOfDay ((maxAppointmentDate (provider k)).getD 0) + ONE_DAY) := by
  refine ⟨sinceSeq_le_succ end_time provider s0 honest, ?_, ?_⟩
  · intro fuel
    exact searchSinces_chain end_time provider s0 honest fuel 0
  · intro k s' _ hstep
    rw [sinceSeq_succ, hstep]
    exact searchStep_some_eq end_time (provider k) s' hstep

/-- C3 witness: a provider with no results at all trivially honours the
cursor, and the theorem's conclusions hold for it. -/
theorem search_cursor_monotone_witness :
    (∀ k, sinceSeq 100 (fun _ => []) 5 k ≤ sinceSeq 100 (fun _ => []) 5 (k + 1)) ∧
    (∀ fuel, List.Chain' (· ≤ ·) (searchSinces 100 (fun _ => []) fuel 0 5)) ∧
    (∀ k s', (fun _ => ([] : List Visit)) k ≠ [] →
      (searchStep 100 ((fun _ => ([] : List Visit)) k)).2 = some s' →
      sinceSeq 100 (fun _ => []) 5 (k + 1) =
        startOfDay ((maxAppointmentDate ((fun _ => ([] : List Visit)) k)).getD 0) + ONE_DAY) :=
  search_cursor_monotone 100 5 (fun _ => [])
    (fun _ v hv => absurd hv (List.not_mem_nil v))

/-- A run reaching a request that returns an empty page terminates. -/
theorem searchFuel_finite (end_time : ℕ) (provider : ℕ → List Visit) :
    ∀ N k s, provider (k + N) = [] →
      (searchFuel end_time provider (N + 1) k s).isSome := by
  intro N
  induction N with
  | zero =>
    intro k s h
    rw [Nat.add_zero] at h
    rw [searchFuel]
    simp [searchStep, h]
  | succ N ih =>
    intro k s h
    rw [searchFuel]
    rcases hstep : searchStep end_time (provider k) with ⟨ys, opt⟩
    cases opt with
    | none => simp [hstep]
    | some s' =>
      have hN : provider (k + 1 + N) = [] := by
        have : k + 1 + N = k + (N + 1) := by omega
        rw [this]
        exact h
      obtain ⟨r, hr⟩ := Option.isSome_iff_exists.mp (ih (k + 1) s' hN)
      simp [hstep, hr]

/-- Against an honest provider whose pages are never empty and whose dates all
precede `end_time`, the run terminates within `end_time + 1 - cursor` pages:
each page pushes the cursor strictly forward, and once it passes `end_time`
the loop breaks. -/
theorem searchFuel_honest (end_time s0 : ℕ) (provider : ℕ → List Visit)
    (honest : HonestProvider end_time provider s0)
    (hne : ∀ k, provider k ≠ [])
    (hdates : ∀ k, ∀ v ∈ provider k, v.date < end_time) :
    ∀ d k s, end_time + 1 - sinceSeq end_time provider s0 k ≤ d →
      (searchFuel end_time provider (d + 1) k s).isSome := by
  intro d
  induction d with
  | zero =>
    intro k s hd
    exfalso
    obtain ⟨v, hv⟩ := List.exists_mem_of_ne_nil _ (hne k)
    have h1 := honest k v hv
    have h2 := hdates k v hv
    omega
  | succ d ih =>
    intro k s hd
    rw [searchFuel]
    rcases hstep : searchStep end_time (provider k) with ⟨ys, opt⟩
    cases opt with
    | none => simp [hstep]
    | some s' =>
      have hsnd : (searchStep end_time (provider k)).2 = some s' := by
        rw [hstep]
      have hgt : sinceSeq end_time provider s0 k < s' :=
        searchStep_next_gt end_time (provider k) _ s' (honest k) hsnd
      have hseq : sinceSeq end_time provider s0 (k + 1) = s' := by
        rw [sinceSeq_succ, hsnd]
      have hmeas : end_time + 1 - sinceSeq end_time provider s0 (k + 1) ≤ d := by
        rw [hseq]
        omega
      obtain ⟨r, hr⟩ := Option.isSome_iff_exists.mp (ih (k + 1) s' hmeas)
      simp [hstep, hr]

/-- C2: the search generator terminates for every provider that eventually
returns an empty page (a finite result stream), and also for an honest
infinite stream of non-empty pages all dated before `end_time` - then the
day-rollover cursor strictly advances until it exceeds `end_time` and the
loop breaks. -/
theorem search_terminates (end_time now start_time : ℕ) (provider : ℕ → List Visit)
    (h : (∃ N, provider N = []) ∨
      (HonestProvider end_time provider (sinceInit now start_time) ∧
        (∀ k, provider k ≠ []) ∧ (∀ k, ∀ v ∈ provider k, v.date < end_time))) :
    ∃ fuel, (searchFuel end_time provider fuel 0 (sinceInit now start_time)).isSome := by
  rcases h with ⟨N, hN⟩ | ⟨honest, hne, hdates⟩
  · refine ⟨N + 1, searchFuel_finite end_time provider N 0 _ ?_⟩
    rw [Nat.zero_add]
    exact hN
  · exact ⟨end_time + 1 - sinceInit now start_time + 1,
      searchFuel_honest end_time _ provider honest hne hdates _ 0 _ (le_refl _)⟩

/-- C2 witness: a provider whose very first page is empty. -/
theorem search_terminates_witness :
    ∃ fuel, (searchFuel 100 (fun _ => []) fuel 0 (sinceInit 0 0)).isSome :=
  search_terminates 100 0 0 (fun _ => []) (Or.inl ⟨0, rfl⟩)

/- ## C4: a failed booking ends the run, it is not retried -/

/-- C4 counterexample: with retries enabled (`keep_going`), a pass that finds
a visit but whose booking attempt fails terminates the whole run with
`Autobooking failed.` at attempt 1 - the second available pass environment is
never consumed, so no further search+booking pass is run. -/
theorem mainLoop_booking_failure_not_retried :
    (⟨0, 1000, 0, true, false, true, none⟩ : MainArgs).keep_going = true ∧
    passVisits ⟨0, 1000, 0, true, false, true, none⟩ 0
        [⟨500, ['c'], ['d'], ['k'], ['i']⟩] = [⟨500, ['c'], ['d'], ['k'], ['i']⟩] ∧
    (autobook ⟨⟨false, [], []⟩, ⟨false, false, false⟩, false⟩
        ⟨500, ['c'], ['d'], ['k'], ['i']⟩ false).1 = .failure ∧
    mainLoop ⟨0, 1000, 0, true, false, true, none⟩ 0
        [⟨0, [⟨500, ['c'], ['d'], ['k'], ['i']⟩],
            ⟨⟨false, [], []⟩, ⟨false, false, false⟩, false⟩⟩,
         ⟨0, [⟨500, ['c'], ['d'], ['k'], ['i']⟩],
            ⟨⟨false, [], []⟩, ⟨false, false, false⟩, false⟩⟩]
      = some (.autobookFailed, 1) := by
  refine ⟨rfl, by decide, by decide, by decide⟩

/-- C4 amended: when a pass finds visits and the autobooking attempt fails,
the retry loop terminates immediately with the booking failure - even when
retries are enabled; retrying happens only when a pass finds no visits. -/
theorem mainLoop_booking_failure_terminal (args : MainArgs) (e : PassEnv)
    (rest : List PassEnv) (attempt : ℕ)
    (hkeep : args.keep_going = true) (hauto : args.autobookFlag = true)
    (hstart : max args.start (e.now + args.margin) < args.stop)
    (v : Visit)
    (hv : (sortVisits (passVisits args (max args.start (e.now + args.margin)) e.found)).head?
      = some v)
    (hfail : (autobook e.booking v args.reschedule).1 = .failure) :
    mainLoop args attempt (e :: rest) = some (.autobookFailed, attempt + 1) := by
  have hvis_ne : passVisits args (max args.start (e.now + args.margin)) e.found ≠ [] := by
    intro hnil
    rw [hnil] at hv
    cases hv
  have huniq : (unique_visits
      (passVisits args (max args.start (e.now + args.margin)) e.found)).isEmpty = false := by
    rw [List.isEmpty_eq_false]
    intro hnil
    exact hvis_ne (unique_visits_eq_nil.mp hnil)
  simp only [mainLoop]
  rw [if_neg (not_le.mpr hstart)]
  rw [huniq]
  simp only [Bool.false_eq_true, if_false, hauto, if_true, hv, hfail]
  simp

/-- C4 amended witness: a single-pass environment where one visit is found and
the booking fails. -/
theorem mainLoop_booking_failure_terminal_witness :
    mainLoop ⟨0, 1000, 0, true, false, true, none⟩ 0
      [⟨0, [⟨500, ['c'], ['d'], ['k'], ['i']⟩],
          ⟨⟨false, [], []⟩, ⟨false, false, false⟩, false⟩⟩]
      = some (.autobookFailed, 1) :=
  mainLoop_booking_failure_terminal ⟨0, 1000, 0, true, false, true, none⟩
    ⟨0, [⟨500, ['c'], ['d'], ['k'], ['i']⟩], ⟨⟨false, [], []⟩, ⟨false, false, false⟩, false⟩⟩
    [] 0 rfl rfl (by decide) ⟨500, ['c'], ['d'], ['k'], ['i']⟩ (by decide) (by decide)

/- ## C10: parse_datetime maximization -/

/-- The format that matched came from the list tried. -/
theorem tryFormats_mem (fs : List (List FmtItem)) (s : List Char) (fmt : List FmtItem)
    (dt : PyDateTime) (h : tryFormats fs s = some (fmt, dt)) : fmt ∈ fs := by
  induction fs with
  | nil => cases h
  | cons f fs ih =>
    rw [tryFormats] at h
    cases hs : strptime s f with
    | some dt' =>
      rw [hs] at h
      simp only [Option.some.injEq, Prod.mk.injEq] at h
      rw [← h.1]
      exact List.mem_cons_self _ _
    | none =>
      rw [hs] at h
      exact List.mem_cons_of_mem _ (ih h)

/-- In the source's `FORMATS` list, a format without `%H` also has no `%M`. -/
theorem formats_hour_minute : ∀ f ∈ FORMATS, fmtHasHour f = false → fmtHasMinute f = false := by
  have h : FORMATS.all (fun f => fmtHasHour f || !fmtHasMinute f) = true := by decide
  intro f hf hh
  have h2 := List.all_eq_true.mp h f hf
  rw [hh] at h2
  simpa using h2

/-- C10: a successfully parsed input whose matched format carries no hour
directive (a date-only input) maximizes to 23:59:59.999999 of the parsed day;
one whose format has hours but no minutes maximizes to HH:59:59.999999; and
without maximization the result always has seconds and microseconds zero. -/
theorem parse_datetime_maximize_bounds (s : List Char) :
    (∀ fmt dt, tryFormats FORMATS (pyStrip (dropTimezone (pyStrip s))) = some (fmt, dt) →
      fmtHasHour fmt = false →
      parse_datetime s true = some ⟨dt.year, dt.month, dt.day, 23, 59, 59, 999999⟩) ∧
    (∀ fmt dt, tryFormats FORMATS (pyStrip (dropTimezone (pyStrip s))) = some (fmt, dt) →
      fmtHasHour fmt = true → fmtHasMinute fmt = false →
      parse_datetime s true = some ⟨dt.year, dt.month, dt.day, dt.hour, 59, 59, 999999⟩) ∧
    (∀ dt, parse_datetime s false = some dt → dt.second = 0 ∧ dt.microsecond = 0) := by
  refine ⟨?_, ?_, ?_⟩
  · intro fmt dt htry hh
    have hm : fmtHasMinute fmt = false :=
      formats_hour_minute fmt (tryFormats_mem _ _ _ _ htry) hh
    simp only [parse_datetime]
    rw [htry]
    simp [maximizeFixup, hh, hm]
  · intro fmt dt htry hh hm
    simp only [parse_datetime]
    rw [htry]
    simp [maximizeFixup, hh, hm]
  · intro dt h
    simp only [parse_datetime] at h
    cases htry : tryFormats FORMATS (pyStrip (dropTimezone (pyStrip s))) with
    | none =>
      rw [htry] at h
      cases h
    | some p =>
      rw [htry] at h
      simp only [Option.map_some', Option.some.injEq] at h
      rw [← h]
      simp [maximizeFixup]

/-- C10 witness: the date-only input 2024-01-31 maximizes to the last
microsecond of that day, and 2024-01-31 10 (hours, no minutes) maximizes to
the last microsecond of that hour. -/
theorem parse_datetime_maximize_bounds_witness :
    parse_datetime "2024-01-31".data true = some ⟨2024, 1, 31, 23, 59, 59, 999999⟩ ∧
    parse_datetime "2024-01-31 10".data true = some ⟨2024, 1, 31, 10, 59, 59, 999999⟩ :=
  ⟨(parse_datetime_maximize_bounds "2024-01-31".data).1
      [.year, .lit '-', .month, .lit '-', .day] ⟨2024, 1, 31, 0, 0, 0, 0⟩
      (by decide) (by decide),
   (parse_datetime_maximize_bounds "2024-01-31 10".data).2.1
      [.year, .lit '-', .month, .lit '-', .day, .lit ' ', .hour] ⟨2024, 1, 31, 10, 0, 0, 0⟩
      (by decide) (by decide) (by decide)⟩
